import Mathlib

set_option maxHeartbeats 1000000

/-! Verification of the kinetic-models ingestion pipeline
(`import_kinetic_models.py`, `download_rmg_models.py`).

Python strings are modelled as `List Char`; file and network inputs are
passed explicitly; the external collaborators (bibliographic lookup, date
parsing, the RMG thermo/kinetics library loaders) are modelled as inputs
at their interface.  Exceptions are modelled with `Except`. -/

deriving instance DecidableEq for Except

/-- Python `\s` over ASCII: the whitespace characters recognised by `re`. -/
def isSpaceChar (c : Char) : Bool :=
  c == ' ' || c == '\t' || c == '\n' || c == '\r' || c == '\x0b' || c == '\x0c'

/-- Length of the match of the regex `10.\d{4,9}/\S+` at the head of `cs`,
`none` when the pattern does not match at this position.  The unescaped `.`
matches any character except newline; the greedy `\d{4,9}` followed by the
literal `/` matches exactly the maximal digit run, provided its length lies
in `[4, 9]` and the character after it is `/` (a shorter greedy attempt
would have to end on a digit, which `/` is not); `\S+` greedily takes the
maximal nonempty run of non-whitespace characters. -/
def matchLen (cs : List Char) : Option Nat :=
  match cs with
  | c1 :: c2 :: c3 :: rest =>
    if c1 = '1' ∧ c2 = '0' ∧ c3 ≠ '\n' then
      let ds := rest.takeWhile (fun c => c.isDigit)
      if 4 ≤ ds.length ∧ ds.length ≤ 9 then
        match rest.drop ds.length with
        | '/' :: tail =>
          let ss := tail.takeWhile (fun c => !isSpaceChar c)
          if 0 < ss.length then some (4 + ds.length + ss.length) else none
        | _ => none
      else none
    else none
  | _ => none

/-- Worker for `re.findall`: scan left to right, collecting leftmost
non-overlapping matches and resuming after the end of each match.  The
fuel argument starts at the length of the text and every step consumes at
least one character, so the fuel never runs out before the text does. -/
def findallAux : Nat → List Char → List (List Char)
  | 0, _ => []
  | _ + 1, [] => []
  | fuel + 1, c :: cs =>
    match matchLen (c :: cs) with
    | some n => (c :: cs).take n :: findallAux fuel ((c :: cs).drop n)
    | none => findallAux fuel cs

/-- `re.findall(r"10.\d{4,9}/\S+", text)`. -/
def findall (cs : List Char) : List (List Char) := findallAux cs.length cs

/-- Python `d.rstrip(".")`: remove every trailing `'.'`. -/
def rstripDots (s : List Char) : List Char :=
  ((s.reverse).dropWhile (fun c => c == '.')).reverse

/-- One pass of the bracket repair inside `clean`: strip the final
character when the string ends with the closing bracket `c` and contains
exactly one more `c` than the opening bracket `o` (Python
`doi.endswith(closing)` and `doi.count(closing) - doi.count(opening) == 1`). -/
def stripIf (o c : Char) (s : List Char) : List Char :=
  if s.getLast? = some c ∧ s.count c = s.count o + 1 then s.dropLast else s

/-- The nested `clean` function of `get_doi`: iterate the bracket repair
over the pairs `"()"` and `"[]"`, in that order, each pass reading the
value left by the previous one. -/
def clean (doi : List Char) : List Char :=
  [('(', ')'), ('[', ']')].foldl (fun d p => stripIf p.1 p.2 d) doi

/-- The `DOIError` exception of `get_doi`. -/
inductive DOIError where
  | notFound
  | multiple (found : List (List Char))
deriving DecidableEq, Repr

/-- The list `[clean(d.rstrip(".")) for d in regex.findall(source)]`
computed by `get_doi`. -/
def cleaned_matches (text : List Char) : List (List Char) :=
  ((findall text).map rstripDots).map clean

/-- The deduplicated cleaned matches (`matched_set = set(matched_list)`). -/
def unique_dois (text : List Char) : List (List Char) :=
  (cleaned_matches text).dedup

/-- `get_doi`: extract DOI candidates from the citation text, strip
trailing periods, repair trailing brackets, deduplicate; raise `DOIError`
on zero or several distinct candidates, otherwise return
`matched_list[0]`. -/
def get_doi (text : List Char) : Except DOIError (List Char) :=
  if (unique_dois text).length = 0 then .error .notFound
  else if 1 < (unique_dois text).length then .error (.multiple (unique_dois text))
  else .ok ((cleaned_matches text).headD [])

/-- One element of the crossref `author` list (`entry.given`,
`entry.family`; either may be absent). -/
structure AuthorEntry where
  given : Option String
  family : Option String
deriving DecidableEq, Repr

/-- Modelled from the spec: the `Author` record of the generated data
model (`models.py` is produced by the schema generator and is not in the
repository): `{firstName, lastName}`. -/
structure Author where
  firstname : String
  lastname : String
deriving DecidableEq, Repr

/-- The `MissingAuthorData` and `InvalidAuthorData` exceptions; the
invalid case names the offending entry. -/
inductive AuthorError where
  | missing
  | invalid (entry : AuthorEntry)
deriving DecidableEq, Repr

/-- The loop body of `create_authors`, forced to a list (the Python
generator is consumed by `list(authors)` inside `create_source`): raise
`InvalidAuthorData(entry)` on the first entry missing a given or family
name, otherwise yield `Author(firstname=entry.given, lastname=entry.family)`. -/
def create_authors_go : List AuthorEntry → Except AuthorError (List Author)
  | [] => .ok []
  | e :: rest =>
    match e.given, e.family with
    | some g, some f =>
      match create_authors_go rest with
      | .ok as => .ok ({ firstname := g, lastname := f } :: as)
      | .error err => .error err
    | _, _ => .error (.invalid e)

/-- `create_authors`: `MissingAuthorData` when the entry sequence is
`None`, otherwise validate every entry. -/
def create_authors : Option (List AuthorEntry) → Except AuthorError (List Author)
  | none => .error .missing
  | some es => create_authors_go es

/-- A Python value that is either a plain string or a list of strings
(crossref returns `title` and `short-container-title` in both shapes). -/
inductive StrOrList where
  | str (s : String)
  | lst (l : List String)
deriving DecidableEq, Repr

/-- The Python exceptions that can escape the pipeline functions. -/
inductive PyErr where
  | doiError (e : DOIError)
  | missingAuthorData
  | invalidAuthorData (entry : AuthorEntry)
  | validationError
  | indexError
  | dateParseError
  | valueError (got : Nat)
deriving DecidableEq, Repr

/-- `title_body[0] if isinstance(title_body, list) else title_body`:
indexing an empty list raises `IndexError`. -/
def firstOrSelf : StrOrList → Except PyErr String
  | .str s => .ok s
  | .lst l =>
    match l with
    | [] => .error .indexError
    | x :: _ => .ok x

/-- The `message` document returned by the bibliographic lookup
collaborator (`crossref.works(ids=doi).get("message", "")`), at the
interface used by `create_source`: `created.date-time`, `title`,
`short-container-title`, `volume`, `page`, `author`. -/
structure CrossrefMsg where
  created : Option String
  title : StrOrList
  short_container_title : StrOrList
  volume : String
  page : String
  author : Option (List AuthorEntry)

/-- Modelled from the spec: the `Source` record of the generated data
model: `{doi, publicationYear, title, journalName, journalVolume,
pageNumbers, authors}`.  Numeric year as produced from the parsed
creation date. -/
structure Source where
  doi : List Char
  publication_year : Option Int
  title : String
  journal_name : String
  journal_volume : String
  page_numbers : String
  authors : List Author
deriving DecidableEq, Repr

/-- The external collaborators used by `create_source`: the crossref
lookup (`habanero`) and the date parser (`dateutil.parser.parse`, which
may raise); both are outside the repository and passed in at their
interface.  `parseDate` returns the `year` attribute of the parsed date. -/
structure Collaborators where
  lookup : List Char → CrossrefMsg
  parseDate : String → Except PyErr Int

/-- `create_source`: resolve the DOI, look it up, validate authors and
assemble a `Source`.  The surrounding `try`/`except` catches exactly
`InvalidAuthorData`, `DOIError` and `ValidationError` and returns `None`
for them; every other exception (in particular `MissingAuthorData` and a
date-parse failure) propagates. -/
def create_source (co : Collaborators) (citation : List Char) : Except PyErr (Option Source) :=
  let res : Except PyErr Source :=
    match get_doi citation with
    | .error e => .error (.doiError e)
    | .ok doi =>
      let reference := co.lookup doi
      let yearRes : Except PyErr (Option Int) :=
        match reference.created with
        | none => .ok none
        | some dateTime =>
          match co.parseDate dateTime with
          | .error e => .error e
          | .ok y => .ok (some y)
      match yearRes with
      | .error e => .error e
      | .ok year =>
        match firstOrSelf reference.title with
        | .error e => .error e
        | .ok source_title =>
          match firstOrSelf reference.short_container_title with
          | .error e => .error e
          | .ok journal_name =>
            match create_authors reference.author with
            | .error .missing => .error .missingAuthorData
            | .error (.invalid e) => .error (.invalidAuthorData e)
            | .ok authors =>
              .ok {
                doi := doi
                publication_year := year
                title := source_title
                journal_name := journal_name
                journal_volume := reference.volume
                page_numbers := reference.page
                authors := authors }
  match res with
  | .ok s => .ok (some s)
  | .error (.doiError _) => .ok none
  | .error (.invalidAuthorData _) => .ok none
  | .error .validationError => .ok none
  | .error e => .error e

/-- Modelled from the spec: one 2-D representation of a species
(`{adjacencyList, smiles, multiplicity}`). -/
structure Structure where
  smiles : String
  adjacency_list : String
  multiplicity : Int
deriving DecidableEq, Repr

/-- Modelled from the spec: `{formula, inchi, structures}`. -/
structure Isomer where
  formula : String
  inchi : String
  structures : List Structure
deriving DecidableEq, Repr

/-- Modelled from the spec: `{isomers}`. -/
structure Species where
  isomers : List Isomer
deriving DecidableEq, Repr

/-- Modelled from the spec: `{name, species}`. -/
structure NamedSpecies where
  name : String
  species : Species
deriving DecidableEq, Repr

/-- The RMG molecule object at the interface used by `create_species`
(its accessors are external collaborators; their outputs are data here). -/
structure Molecule where
  formula : String
  inchi : String
  smiles : String
  adjacency_list : String
  multiplicity : Int
deriving DecidableEq, Repr

/-- `create_species`: wrap one molecule into a single-structure,
single-isomer species. -/
def create_species (m : Molecule) : Species :=
  { isomers := [{
      formula := m.formula
      inchi := m.inchi
      structures := [{
        smiles := m.smiles
        adjacency_list := m.adjacency_list
        multiplicity := m.multiplicity }] }] }

/-- `create_named_species`. -/
def create_named_species (name : String) (m : Molecule) : NamedSpecies :=
  { name := name, species := create_species m }

/-- One NASA polynomial of a thermo entry (coefficients and validity
range; numeric values are uninterpreted integers here). -/
structure NASAPolynomial where
  coeffs : List Int
  tmin : Int
  tmax : Int
deriving DecidableEq, Repr

/-- One entry of the loaded `ThermoLibrary` (the loader is an external
collaborator; `thermo_data.polynomials` is unpacked into exactly two
polynomials by the source, so the entry carries the two polynomials). -/
structure ThermoEntry where
  name : String
  item : Molecule
  poly1 : NASAPolynomial
  poly2 : NASAPolynomial
deriving DecidableEq, Repr

/-- Modelled from the spec: the `Thermo` record `{species, polynomial1,
polynomial2, tempMin1, tempMax1, tempMin2, tempMax2}`. -/
structure Thermo where
  species : NamedSpecies
  polynomial1 : List Int
  polynomial2 : List Int
  temp_min_1 : Int
  temp_max_1 : Int
  temp_min_2 : Int
  temp_max_2 : Int
deriving DecidableEq, Repr

/-- `create_thermo`: map every library entry to a `(Thermo, NamedSpecies)`
pair (the generator is yielded in library order). -/
def create_thermo (entries : List ThermoEntry) : List (Thermo × NamedSpecies) :=
  entries.map fun e =>
    let species := create_named_species e.name e.item
    ({ species := species
       polynomial1 := e.poly1.coeffs
       polynomial2 := e.poly2.coeffs
       temp_min_1 := e.poly1.tmin
       temp_max_1 := e.poly1.tmax
       temp_min_2 := e.poly2.tmin
       temp_max_2 := e.poly2.tmax }, species)

/-- Modelled from the spec: the reaction part of a kinetics record.  The
source's `create_reaction` body is the bare `...` literal, so it returns
`None`; no field of this record is ever populated. -/
structure Reaction where
deriving DecidableEq, Repr

/-- Modelled from the spec: Arrhenius-family rate parameters; the
source's `create_kinetics_data` body is the bare `...` literal, so it
returns `None` and no value of this type is ever built. -/
structure KineticsData where
deriving DecidableEq, Repr

/-- `create_reaction`: the function body is `...`, so the call evaluates
the `Ellipsis` literal and returns `None`. -/
def create_reaction (_rmg_reaction : Unit) : Option Reaction := none

/-- `create_kinetics_data`: the function body is `...`, so the call
returns `None`. -/
def create_kinetics_data (_rmg_kinetics_data : Unit) : Option KineticsData := none

/-- One entry of the loaded `KineticsLibrary` at the interface used by
`create_kinetics`: `getattr(data.Tmin, "value_si", None)` and friends
(numeric values uninterpreted). -/
structure KinEntry where
  tmin : Option Int
  tmax : Option Int
  pmin : Option Int
  pmax : Option Int
deriving DecidableEq, Repr

/-- Modelled from the spec: the `Kinetics` record `{reaction, data,
source, forReverse, minTemp, maxTemp, minPressure, maxPressure}`. -/
structure Kinetics where
  reaction : Option Reaction
  data : Option KineticsData
  source : Option Source
  for_reverse : Bool
  min_temp : Option Int
  max_temp : Option Int
  min_pressure : Option Int
  max_pressure : Option Int
deriving DecidableEq, Repr

/-- `create_kinetics`: map every kinetics-library entry to a `Kinetics`
record (reaction and data are `None` because `create_reaction` and
`create_kinetics_data` return `None`). -/
def create_kinetics (entries : List KinEntry) : List Kinetics :=
  entries.map fun e =>
    { reaction := create_reaction ()
      data := create_kinetics_data ()
      source := none
      for_reverse := false
      min_temp := e.tmin
      max_temp := e.tmax
      min_pressure := e.pmin
      max_pressure := e.pmax }

/-- The `KineticModel` exactly as `create_kinetic_model` assembles it:
`thermo, named_species = create_thermo(...)` unpacks the pair generator
into two variables, so each of the `thermo` and `named_species` fields
receives one `(Thermo, NamedSpecies)` pair — not the sequences that the
spec-level `KineticModel` declares. -/
structure KMBuilt where
  name : String
  named_species : Thermo × NamedSpecies
  thermo : Thermo × NamedSpecies
  kinetics : List Kinetics
  source : Option Source
deriving DecidableEq, Repr

/-- One model directory together with the outputs of the external file
loaders for its three files: the citation text of `source.txt` and the
entries loaded from the thermo and kinetics libraries. -/
structure DirInput where
  name : String
  citation : List Char
  thermoEntries : List ThermoEntry
  kinEntries : List KinEntry
deriving Repr

/-- `create_kinetic_model`: resolve the source, then evaluate
`thermo, named_species = create_thermo(model_dir.thermo_path)`.  Python
tuple-unpacking of the generator raises `ValueError` unless it yields
exactly two items; with exactly two, `thermo` is bound to the first
`(Thermo, NamedSpecies)` pair and `named_species` to the second. -/
def create_kinetic_model (co : Collaborators) (d : DirInput) : Except PyErr KMBuilt :=
  match create_source co d.citation with
  | .error e => .error e
  | .ok source =>
    match create_thermo d.thermoEntries with
    | [a, b] =>
      .ok {
        name := d.name
        named_species := b
        thermo := a
        kinetics := create_kinetics d.kinEntries
        source := source }
    | l => .error (.valueError l.length)

/-- The batch loop of `import_rmg_models`: post each assembled model in
turn.  There is no `try`/`except` around the body, so the first exception
aborts the loop; the first component collects the models actually posted
before the abort and the second records the aborting exception, if any. -/
def importRmgModels (co : Collaborators) (dirs : List DirInput) : List KMBuilt × Option PyErr :=
  match dirs with
  | [] => ([], none)
  | d :: rest =>
    match create_kinetic_model co d with
    | .error e => ([], some e)
    | .ok km =>
      let r := importRmgModels co rest
      (km :: r.1, r.2)

/-- The `EnvironmentVariableMissing` exception of the import entry point. -/
inductive EnvErr where
  | environmentVariableMissing (msg : String)
deriving DecidableEq, Repr

/-- `main` of `import_kinetic_models.py`: read `POST_ENDPOINT`, raise
`EnvironmentVariableMissing` when unset, otherwise run the batch. -/
def py_main (env : String → Option String) (co : Collaborators) (dirs : List DirInput) :
    Except EnvErr (List KMBuilt × Option PyErr) :=
  match env "POST_ENDPOINT" with
  | none => .error (.environmentVariableMissing "POST_ENDPOINT not set")
  | some _ => .ok (importRmgModels co dirs)

/-- The state of `download_rmg_models` at the moment work begins: the
token handed to the Github client and the repository about to be listed. -/
structure DownloadStart where
  pat : Option String
  repo : String
deriving DecidableEq, Repr

/-- `download_rmg_models`: `PAT = os.getenv("PAT")` is read without any
check and passed straight to `Github(PAT)`; the function then builds the
repo name and begins listing.  No code path raises before work begins,
so the result is always the started download. -/
def download_rmg_models (env : String → Option String) : Except EnvErr DownloadStart :=
  .ok { pat := env "PAT", repo := "kianmehrabani/RMG-models" }

/-- The local mirror filesystem at the interface used by
`get_model_paths`: the children of the data directory (`iterdir`) and
the `is_dir` / `exists` predicates.  Paths are segment lists. -/
structure MirrorFS where
  children : List (List String)
  isDir : List String → Bool
  pathExists : List String → Bool

/-- `path.name`: the last path segment. -/
def pathName (p : List String) : String := p.getLastD ""

/-- `path / "RMG-Py-thermo-library" / "ThermoLibrary.py"`. -/
def thermoSub (p : List String) : List String :=
  p ++ ["RMG-Py-thermo-library", "ThermoLibrary.py"]

/-- `path / "RMG-Py-kinetics-library" / "reactions.py"`. -/
def kineticsSub (p : List String) : List String :=
  p ++ ["RMG-Py-kinetics-library", "reactions.py"]

/-- `path / "source.txt"`. -/
def sourceSub (p : List String) : List String := p ++ ["source.txt"]

/-- The `ModelDir` named tuple. -/
structure ModelDir where
  name : String
  thermo_path : List String
  kinetics_path : List String
  source_path : List String
deriving DecidableEq, Repr

/-- `get_model_paths`: yield a `ModelDir` for every child of the data
directory that is a directory, is not in the ignore list, and whose three
artifact paths all exist. -/
def get_model_paths (fs : MirrorFS) (ignore_list : List String) : List ModelDir :=
  fs.children.filterMap fun path =>
    if fs.isDir path && !(ignore_list.contains (pathName path))
        && fs.pathExists (thermoSub path) && fs.pathExists (kineticsSub path)
        && fs.pathExists (sourceSub path) then
      some {
        name := pathName path
        thermo_path := thermoSub path
        kinetics_path := kineticsSub path
        source_path := sourceSub path }
    else none

/-- The citation text of the end-to-end scenario. -/
def citA : List Char := "... https://doi.org/10.1000/xyz123). ".toList

/-- A well-formed bibliographic lookup response. -/
def msgA : CrossrefMsg := {
  created := some "2020-01-01T00:00:00Z"
  title := .lst ["A Title"]
  short_container_title := .str "J"
  volume := "1"
  page := "2-3"
  author := some [{ given := some "Kian", family := some "Mehrabani" }] }

/-- Collaborators that answer every lookup with `msgA` and parse every
date to the year 2020. -/
def coA : Collaborators := { lookup := fun _ => msgA, parseDate := fun _ => .ok 2020 }

/-- A sample molecule. -/
def molA (n : String) : Molecule :=
  { formula := n, inchi := n, smiles := n, adjacency_list := n, multiplicity := 1 }

/-- A sample thermo-library entry named `n`. -/
def teA (n : String) : ThermoEntry :=
  { name := n, item := molA n
    poly1 := { coeffs := [1, 2], tmin := 300, tmax := 1000 }
    poly2 := { coeffs := [3, 4], tmin := 1000, tmax := 3000 } }

/-- The `model_A` directory of the end-to-end scenario with a two-entry
thermo library. -/
def dirA2 : DirInput := {
  name := "model_A"
  citation := citA
  thermoEntries := [teA "sp1", teA "sp2"]
  kinEntries := [{ tmin := some 300, tmax := some 3000, pmin := none, pmax := none }] }

/-- The same directory with a three-entry (still valid) thermo library. -/
def dirA3 : DirInput := {
  name := "model_A"
  citation := citA
  thermoEntries := [teA "sp1", teA "sp2", teA "sp3"]
  kinEntries := [] }

/-- A well-formed model directory. -/
def dirGood : DirInput := {
  name := "model_B"
  citation := "see 10.5000/good".toList
  thermoEntries := [teA "b1", teA "b2"]
  kinEntries := [] }

/-- A directory whose thermo library holds a single entry, so that the
tuple unpacking in `create_kinetic_model` raises `ValueError`. -/
def dirBad1 : DirInput := {
  name := "model_C"
  citation := "see 10.6000/bad".toList
  thermoEntries := [teA "c1"]
  kinEntries := [] }

/-- Another well-formed model directory. -/
def dirGood2 : DirInput := {
  name := "model_D"
  citation := "see 10.7000/d12".toList
  thermoEntries := [teA "d1", teA "d2"]
  kinEntries := [] }

/-- A model directory whose citation text contains no DOI candidate but
whose thermo library has exactly two entries. -/
def dirNoDoi : DirInput := {
  name := "model_E"
  citation := "no citation".toList
  thermoEntries := [teA "e1", teA "e2"]
  kinEntries := [] }

/-- A mirror child path. -/
def pA : List String := ["rmg-models", "model_A"]

/-- Another mirror child path. -/
def pB : List String := ["rmg-models", "model_B"]

/-- A mirror with two directories; `model_B` is missing only
`source.txt`. -/
def fsW : MirrorFS := {
  children := [pA, pB]
  isDir := fun p => p == pA || p == pB
  pathExists := fun p =>
    p == thermoSub pA || p == kineticsSub pA || p == sourceSub pA
      || p == thermoSub pB || p == kineticsSub pB }

/-- The `ModelDir` the scanner yields for `pA`. -/
def mdA : ModelDir := {
  name := "model_A"
  thermo_path := thermoSub pA
  kinetics_path := kineticsSub pA
  source_path := sourceSub pA }


/-- The shape of a candidate matched by the regex `10.\d{4,9}/\S+`: the
literal `10`, one arbitrary non-newline character, four to nine digits, a
slash, and a nonempty run of non-whitespace characters. -/
def doiShape (m : List Char) : Prop :=
  ∃ c ds ss, m = '1' :: '0' :: c :: (ds ++ '/' :: ss)
    ∧ c ≠ '\n'
    ∧ (∀ d ∈ ds, d.isDigit = true)
    ∧ 4 ≤ ds.length ∧ ds.length ≤ 9
    ∧ ss ≠ []
    ∧ (∀ x ∈ ss, isSpaceChar x = false)

theorem get_doi_nil (text : List Char) (h : unique_dois text = []) :
    get_doi text = .error .notFound := by
  rw [get_doi, if_pos]
  rw [h]
  rfl

theorem get_doi_many (text : List Char) (h : 1 < (unique_dois text).length) :
    get_doi text = .error (.multiple (unique_dois text)) := by
  have h0 : ¬((unique_dois text).length = 0) := by omega
  rw [get_doi, if_neg h0, if_pos h]

theorem get_doi_singleton (text : List Char) (d : List Char)
    (h : unique_dois text = [d]) : get_doi text = .ok d := by
  have h0 : ¬((unique_dois text).length = 0) := by rw [h]; simp
  have h1 : ¬(1 < (unique_dois text).length) := by rw [h]; simp
  rw [get_doi, if_neg h0, if_neg h1]
  have hne : cleaned_matches text ≠ [] := by
    intro hc
    rw [unique_dois, hc] at h
    simp [List.dedup] at h
  obtain ⟨y, ys, hys⟩ := List.exists_cons_of_ne_nil hne
  have hy : y ∈ cleaned_matches text := by rw [hys]; exact List.mem_cons_self y ys
  have hyd : y ∈ unique_dois text := by
    rw [unique_dois]
    exact List.mem_dedup.mpr hy
  rw [h] at hyd
  simp at hyd
  rw [hys, List.headD_cons, hyd]

/-- C3: for every citation text, `get_doi` raises the not-found `DOIError`
when the set of cleaned, deduplicated DOI matches is empty, raises the
ambiguous `DOIError` when that set has more than one element, and
otherwise returns the single unique DOI. -/
theorem get_doi_trichotomy (text : List Char) :
    (unique_dois text = [] → get_doi text = .error .notFound)
  ∧ (1 < (unique_dois text).length → get_doi text = .error (.multiple (unique_dois text)))
  ∧ (∀ d, unique_dois text = [d] → get_doi text = .ok d) :=
  ⟨get_doi_nil text, get_doi_many text, fun d h => get_doi_singleton text d h⟩

/-- Witness for C3 at three concrete citation texts: one with no DOI
candidate, one with two distinct candidates and one with a single one. -/
theorem get_doi_trichotomy_witness :
    get_doi ("no doi here".toList) = .error .notFound
  ∧ get_doi ("10.1000/a 10.2000/b".toList)
      = .error (.multiple (unique_dois ("10.1000/a 10.2000/b".toList)))
  ∧ get_doi ("see 10.1000/a".toList) = .ok ("10.1000/a".toList) :=
  ⟨(get_doi_trichotomy _).1 (by decide),
   (get_doi_trichotomy _).2.1 (by decide),
   (get_doi_trichotomy _).2.2 _ (by decide)⟩

theorem getLast?_split {s : List Char} {c : Char} (h : s.getLast? = some c) :
    s = s.dropLast ++ [c] := by
  induction s using List.reverseRecOn with
  | nil => simp at h
  | append_singleton l a _ =>
    rw [List.getLast?_concat] at h
    obtain rfl : a = c := by injection h
    rw [List.dropLast_concat]

theorem count_last_same {s : List Char} {c : Char} (h : s.getLast? = some c) :
    s.count c = s.dropLast.count c + 1 := by
  conv_lhs => rw [getLast?_split h]
  rw [List.count_append, show List.count c [c] = 1 from by simp [List.count_cons]]

theorem count_last_other {s : List Char} {c x : Char} (h : s.getLast? = some c)
    (hx : c ≠ x) : s.count x = s.dropLast.count x := by
  conv_lhs => rw [getLast?_split h]
  have h0 : List.count x [c] = 0 := by
    rw [List.count_eq_zero]
    simp
    exact fun hh => hx hh.symm
  rw [List.count_append, h0, Nat.add_zero]

theorem stripIf_fire {o c : Char} {s : List Char} (h1 : s.getLast? = some c)
    (h2 : s.count c = s.count o + 1) : stripIf o c s = s.dropLast := by
  rw [stripIf, if_pos ⟨h1, h2⟩]

theorem stripIf_skip {o c : Char} {s : List Char}
    (h : ¬(s.getLast? = some c ∧ s.count c = s.count o + 1)) : stripIf o c s = s := by
  rw [stripIf, if_neg h]

theorem clean_eq_steps (s : List Char) :
    clean s = stripIf '[' ']' (stripIf '(' ')' s) := rfl

/-- C4 counterexample: the input `"x])"` ends with `')'` and has exactly
one more `')'` than `'('`, so the claim mandates stripping exactly that
one bracket (giving `"x]"`, i.e. the `dropLast`); `clean` instead also
performs the `']'` pass on the already-stripped value and removes two
characters. -/
theorem clean_double_strip_counterexample :
    clean ['x', ']', ')'] = ['x']
  ∧ (['x', ']', ')'] : List Char).dropLast = ['x', ']']
  ∧ clean ['x', ']', ')'] ≠ (['x', ']', ')'] : List Char).dropLast := by decide

/-- C4 amended: `clean` runs the bracket repair for `')'` and then for
`']'`, each pass on the value left by the previous one; a single pass
strips the last character (exactly one) precisely when the current string
ends with the closing bracket and has exactly one more closing than
opening bracket of that kind, and otherwise leaves the string unchanged —
so up to two characters can be removed in total.  In particular a string
with balanced parentheses followed by a stray `')'` (and not itself
subject to the `']'` pass) is cleaned to the string without that
parenthesis. -/
theorem clean_characterization :
    (∀ s : List Char, clean s = stripIf '[' ']' (stripIf '(' ')' s))
  ∧ (∀ (o c : Char) (t : List Char),
      (stripIf o c t = t.dropLast ∧ t ≠ []) ↔
        (t.getLast? = some c ∧ t.count c = t.count o + 1))
  ∧ (∀ d : List Char, d.count ')' = d.count '('
      → ¬(d.getLast? = some ']' ∧ d.count ']' = d.count '[' + 1)
      → clean (d ++ [')']) = d) := by
  refine ⟨clean_eq_steps, ?_, ?_⟩
  · intro o c t
    constructor
    · rintro ⟨he, hne⟩
      by_contra hcond
      rw [stripIf_skip hcond] at he
      have hlen := congrArg List.length he
      rw [List.length_dropLast] at hlen
      have : t.length ≠ 0 := fun h0 => hne (List.length_eq_zero.mp h0)
      omega
    · rintro ⟨h1, h2⟩
      refine ⟨stripIf_fire h1 h2, ?_⟩
      intro hnil
      rw [hnil] at h1
      simp at h1
  · intro d hp hb
    have hL : (d ++ [')']).getLast? = some ')' := List.getLast?_concat _
    have e1 : (d ++ [')']).count ')' = d.count ')' + 1 := by
      rw [List.count_append, show List.count ')' [')'] = 1 from by decide]
    have e2 : (d ++ [')']).count '(' = d.count '(' := by
      rw [List.count_append, show List.count '(' [')'] = 0 from by decide,
        Nat.add_zero]
    rw [clean_eq_steps, stripIf_fire hL (by rw [e1, e2, hp]),
      List.dropLast_concat, stripIf_skip hb]

/-- Witness for C4: a DOI with balanced brackets followed by a stray
closing parenthesis is cleaned to the DOI alone. -/
theorem clean_characterization_witness :
    clean ("10.1000/xyz123".toList ++ [')']) = "10.1000/xyz123".toList :=
  clean_characterization.2.2 _ (by decide) (by decide)

/-- C5 counterexample: on `")]"` the `']'` pass exposes a `')'` with an
unmatched-parenthesis excess, so a second application of `clean` strips
again: `clean ")]" = ")"` but `clean (clean ")]") = ""`. -/
theorem clean_not_idempotent_counterexample :
    clean (clean [')', ']']) ≠ clean [')', ']'] := by decide

/-- C5 amended: `clean` is idempotent on every input that does not end
with `']'` (the counterexample `")]"` ends with `']'`; only there can the
`']'` pass expose a new candidate for the earlier `')'` pass). -/
theorem clean_idempotent_unless_rbracket (s : List Char)
    (h : s.getLast? ≠ some ']') : clean (clean s) = clean s := by
  rw [clean_eq_steps s]
  by_cases h1 : s.getLast? = some ')' ∧ s.count ')' = s.count '(' + 1
  · rw [stripIf_fire h1.1 h1.2]
    have c1 := count_last_same h1.1
    have c2 := count_last_other h1.1 (show ')' ≠ '(' by decide)
    have hpc : s.dropLast.count ')' = s.dropLast.count '(' := by omega
    by_cases h2 : s.dropLast.getLast? = some ']'
        ∧ s.dropLast.count ']' = s.dropLast.count '[' + 1
    · rw [stripIf_fire h2.1 h2.2]
      have b1 := count_last_same h2.1
      have b2 := count_last_other h2.1 (show ']' ≠ '[' by decide)
      have b3 := count_last_other h2.1 (show ']' ≠ ')' by decide)
      have b4 := count_last_other h2.1 (show ']' ≠ '(' by decide)
      have n1 : ¬(s.dropLast.dropLast.getLast? = some ')'
          ∧ s.dropLast.dropLast.count ')' = s.dropLast.dropLast.count '(' + 1) :=
        fun hc => by have := hc.2; omega
      have n2 : ¬(s.dropLast.dropLast.getLast? = some ']'
          ∧ s.dropLast.dropLast.count ']' = s.dropLast.dropLast.count '[' + 1) :=
        fun hc => by have := hc.2; omega
      rw [clean_eq_steps, stripIf_skip n1, stripIf_skip n2]
    · rw [stripIf_skip h2, clean_eq_steps]
      have n1 : ¬(s.dropLast.getLast? = some ')'
          ∧ s.dropLast.count ')' = s.dropLast.count '(' + 1) :=
        fun hc => by have := hc.2; omega
      rw [stripIf_skip n1, stripIf_skip h2]
  · rw [stripIf_skip h1]
    have h2 : ¬(s.getLast? = some ']' ∧ s.count ']' = s.count '[' + 1) :=
      fun hc => h hc.1
    rw [stripIf_skip h2, clean_eq_steps, stripIf_skip h1, stripIf_skip h2]

/-- Witness for C5 at a concrete string not ending in `']'`. -/
theorem clean_idempotent_unless_rbracket_witness :
    clean (clean ['a', ')']) = clean ['a', ')'] :=
  clean_idempotent_unless_rbracket ['a', ')'] (by decide)

theorem matchLen_shape {cs : List Char} {n : Nat} (h : matchLen cs = some n) :
    doiShape (cs.take n) := by
  match cs with
  | [] => simp [matchLen] at h
  | [_] => simp [matchLen] at h
  | [_, _] => simp [matchLen] at h
  | c1 :: c2 :: c3 :: rest =>
    simp only [matchLen] at h
    split at h
    · rename_i hcond
      obtain ⟨h1, h2, hnl⟩ := hcond
      subst h1
      subst h2
      split at h
      · rename_i hlen
        split at h
        · rename_i tail heq
          split at h
          · rename_i hS
            injection h with hn
            subst hn
            set T := rest.takeWhile (fun c => c.isDigit) with hT
            set S2 := tail.takeWhile (fun c => !isSpaceChar c) with hS2
            have hrest : T ++ rest.dropWhile (fun c => c.isDigit) = rest :=
              List.takeWhile_append_dropWhile _ _
            have hdrop : rest.drop T.length = rest.dropWhile (fun c => c.isDigit) := by
              conv_lhs => rw [← hrest]
              rw [List.drop_left]
            have hD : rest.dropWhile (fun c => c.isDigit) = '/' :: tail := by
              rw [← hdrop]
              exact heq
            have htail : S2 ++ tail.dropWhile (fun c => !isSpaceChar c) = tail :=
              List.takeWhile_append_dropWhile _ _
            have htake : ('1' :: '0' :: c3 :: rest).take (4 + T.length + S2.length)
                = '1' :: '0' :: c3 :: (T ++ '/' :: S2) := by
              rw [show 4 + T.length + S2.length
                  = ((T.length + (S2.length + 1)) + 1 + 1 + 1) from by omega]
              rw [List.take_succ_cons, List.take_succ_cons, List.take_succ_cons]
              congr 1
              conv_lhs => rw [← hrest, hD]
              rw [List.take_append_eq_append_take]
              rw [List.take_of_length_le
                (by omega : T.length ≤ T.length + (S2.length + 1))]
              rw [show T.length + (S2.length + 1) - T.length = S2.length + 1 from by
                omega]
              rw [List.take_succ_cons]
              congr 1
              conv_lhs => rw [← htail]
              rw [List.take_append_eq_append_take,
                List.take_of_length_le (Nat.le_refl _), Nat.sub_self, List.take_zero,
                List.append_nil]
            refine ⟨c3, T, S2, htake, hnl, ?_, hlen.1, hlen.2, ?_, ?_⟩
            · intro d hd
              exact List.mem_takeWhile_imp hd
            · intro h0
              rw [h0] at hS
              simp at hS
            · intro x hx
              have hx' := List.mem_takeWhile_imp hx
              simpa using hx'
          · exact absurd h (by simp)
        · exact absurd h (by simp)
      · exact absurd h (by simp)
    · exact absurd h (by simp)

theorem findallAux_sound (text : List Char) :
    ∀ (fuel : Nat) (cs : List Char), cs <:+ text →
      ∀ m ∈ findallAux fuel cs, m <:+: text ∧ doiShape m := by
  intro fuel
  induction fuel with
  | zero =>
    intro cs _ m hm
    simp [findallAux] at hm
  | succ fuel ih =>
    intro cs hsuf m hm
    match cs with
    | [] => simp [findallAux] at hm
    | c :: cs' =>
      simp only [findallAux] at hm
      split at hm
      · rename_i n heq
        rcases List.mem_cons.mp hm with rfl | hm'
        · constructor
          · obtain ⟨w, hw⟩ := hsuf
            refine ⟨w, (c :: cs').drop n, ?_⟩
            rw [List.append_assoc, List.take_append_drop]
            exact hw
          · exact matchLen_shape heq
        · have hsuf' : (c :: cs').drop n <:+ text :=
            List.IsSuffix.trans (List.drop_suffix n (c :: cs')) hsuf
          exact ih _ hsuf' m hm'
      · have hsuf' : cs' <:+ text := List.IsSuffix.trans ⟨[c], rfl⟩ hsuf
        exact ih _ hsuf' m hm

/-- C8 counterexample: the regex is written `10.\d{4,9}/\S+` with an
unescaped dot, so the third character of a match may be any character:
the text `"10x1234/abc"` is extracted even though its third character is
`'x'`, not a period — the claim says no such substring is extracted. -/
theorem findall_unescaped_dot_counterexample :
    findall ("10x1234/abc".toList) = ["10x1234/abc".toList]
  ∧ ("10x1234/abc".toList).take 3 = ['1', '0', 'x']
  ∧ ('x' : Char) ≠ '.' := by decide

/-- C8 amended: every substring extracted as a DOI candidate is a
substring of the citation text matching `10`, one arbitrary non-newline
character (the dot in the pattern is unescaped), four to nine digits, a
slash, and one or more non-whitespace characters; extraction takes the
leftmost non-overlapping greedy matches. -/
theorem findall_matches_shape (text m : List Char) (hm : m ∈ findall text) :
    m <:+: text ∧ doiShape m :=
  findallAux_sound text text.length text (List.suffix_refl text) m hm

/-- Witness for C8 at a concrete text with one embedded candidate. -/
theorem findall_matches_shape_witness :
    ("10.1234/ab".toList) <:+: ("see 10.1234/ab ok".toList)
  ∧ doiShape ("10.1234/ab".toList) :=
  findall_matches_shape _ _ (by decide)

theorem head?_dropWhile_not (p : Char → Bool) (l : List Char) (x : Char)
    (h : (l.dropWhile p).head? = some x) : p x = false := by
  induction l with
  | nil => simp [List.dropWhile] at h
  | cons a t ih =>
    rw [List.dropWhile_cons] at h
    split at h
    · exact ih h
    · rename_i hpa
      have hx : x = a := by
        simp at h
        exact h.symm
      subst hx
      simpa using hpa

theorem rstripDots_no_trailing_dot (m : List Char) :
    (rstripDots m).getLast? ≠ some '.' := by
  rw [rstripDots, List.getLast?_reverse]
  intro hc
  have := head?_dropWhile_not _ _ _ hc
  simp at this

theorem dedup_const (l : List (List Char)) (x : List Char) (hne : l ≠ [])
    (hall : ∀ y ∈ l, y = x) : l.dedup = [x] := by
  induction l with
  | nil => exact absurd rfl hne
  | cons a t ih =>
    have ha : a = x := hall a (List.mem_cons_self a t)
    subst ha
    cases t with
    | nil => simp
    | cons b t' =>
      have hb : b = a := hall b (by simp)
      have hmem : a ∈ b :: t' := by
        rw [hb]
        exact List.mem_cons_self _ _
      rw [List.dedup_cons_of_mem hmem]
      exact ih (by simp) (fun y hy => hall y (List.mem_cons_of_mem a hy))

/-- C10 counterexample: on the citation text `"10.1234/x.)"` the raw
match ends in `')'`, so the period-stripping step leaves it unchanged and
the later bracket repair then exposes a trailing period: `get_doi` returns
`"10.1234/x."`, which ends with a period — the claim says the returned
DOI never ends with one. -/
theorem get_doi_trailing_period_counterexample :
    get_doi ("10.1234/x.)".toList) = .ok ("10.1234/x.".toList)
  ∧ ("10.1234/x.".toList).getLast? = some '.' := by decide

/-- C10 amended: `get_doi` strips all trailing periods from each raw
match before bracket cleaning and deduplication — so matches differing
only in trailing periods count as one unique DOI, and the dot-stripped
matches never end in a period — but the returned DOI is the bracket-clean
of a dot-stripped match, and the bracket repair can expose a period that
preceded a stripped bracket. -/
theorem get_doi_rstrip_spec :
    (∀ (text M : List Char), findall text ≠ [] →
      (∀ m ∈ findall text, rstripDots m = M) → get_doi text = .ok (clean M))
  ∧ (∀ m : List Char, (rstripDots m).getLast? ≠ some '.')
  ∧ (∀ (text d : List Char), get_doi text = .ok d →
      ∃ m ∈ findall text, d = clean (rstripDots m)) := by
  refine ⟨?_, rstripDots_no_trailing_dot, ?_⟩
  · intro text M hne hall
    have hcm : ∀ y ∈ cleaned_matches text, y = clean M := by
      intro y hy
      rw [cleaned_matches] at hy
      obtain ⟨z, hz, rfl⟩ := List.mem_map.mp hy
      obtain ⟨m, hm, rfl⟩ := List.mem_map.mp hz
      rw [hall m hm]
    have hcne : cleaned_matches text ≠ [] := by
      intro h0
      apply hne
      rw [cleaned_matches] at h0
      simpa using h0
    exact get_doi_singleton text (clean M) (dedup_const _ _ hcne hcm)
  · intro text d hok
    by_cases h0 : (unique_dois text).length = 0
    · rw [get_doi, if_pos h0] at hok
      exact absurd hok (by simp)
    · by_cases h1 : 1 < (unique_dois text).length
      · rw [get_doi, if_neg h0, if_pos h1] at hok
        exact absurd hok (by simp)
      · rw [get_doi, if_neg h0, if_neg h1] at hok
        injection hok with hd
        have hcne : cleaned_matches text ≠ [] := by
          intro hc
          apply h0
          rw [unique_dois, hc]
          simp
        obtain ⟨y, ys, hys⟩ := List.exists_cons_of_ne_nil hcne
        have hy : y ∈ cleaned_matches text := by
          rw [hys]
          exact List.mem_cons_self _ _
        rw [cleaned_matches] at hy
        obtain ⟨z, hz, hzy⟩ := List.mem_map.mp hy
        obtain ⟨m, hm, hmz⟩ := List.mem_map.mp hz
        refine ⟨m, hm, ?_⟩
        rw [← hd, hys, List.headD_cons, ← hzy, hmz]

/-- Witness for C10: two matches differing only in a trailing period
dedupe to one DOI; a concrete dot-strip has no trailing period; the
returned DOI for a simple text is the clean of a dot-stripped match. -/
theorem get_doi_rstrip_spec_witness :
    get_doi ("10.1234/x 10.1234/x.".toList) = .ok (clean ("10.1234/x".toList))
  ∧ (rstripDots ("10.1234/x..".toList)).getLast? ≠ some '.'
  ∧ ∃ m ∈ findall ("see 10.1234/ab".toList),
      ("10.1234/ab".toList) = clean (rstripDots m) :=
  ⟨get_doi_rstrip_spec.1 _ _ (by decide) (by decide),
   get_doi_rstrip_spec.2.1 _,
   get_doi_rstrip_spec.2.2 _ _ (by decide)⟩

theorem create_authors_go_invalid (es : List AuthorEntry)
    (h : ∃ e ∈ es, e.given = none ∨ e.family = none) :
    ∃ e, e ∈ es ∧ (e.given = none ∨ e.family = none)
      ∧ create_authors_go es = .error (.invalid e) := by
  induction es with
  | nil =>
    obtain ⟨e, he, _⟩ := h
    exact absurd he (List.not_mem_nil e)
  | cons e0 rest ih =>
    obtain ⟨e, he, hbad⟩ := h
    cases hg : e0.given with
    | none =>
      refine ⟨e0, List.mem_cons_self _ _, Or.inl hg, ?_⟩
      simp [create_authors_go, hg]
    | some g =>
      cases hf : e0.family with
      | none =>
        refine ⟨e0, List.mem_cons_self _ _, Or.inr hf, ?_⟩
        simp [create_authors_go, hg, hf]
      | some f =>
        have he' : e ∈ rest := by
          rcases List.mem_cons.mp he with rfl | h'
          · rcases hbad with hb | hb
            · rw [hg] at hb
              exact absurd hb (by simp)
            · rw [hf] at hb
              exact absurd hb (by simp)
          · exact h'
        obtain ⟨e', he'', hbad', herr⟩ := ih ⟨e, he', hbad⟩
        refine ⟨e', List.mem_cons_of_mem _ he'', hbad', ?_⟩
        simp [create_authors_go, hg, hf, herr]

theorem create_authors_go_ok (es : List AuthorEntry) :
    ∀ l : List Author, create_authors_go es = .ok l →
      ∀ a ∈ l, ∃ e ∈ es, e.given = some a.firstname ∧ e.family = some a.lastname := by
  induction es with
  | nil =>
    intro l h a ha
    rw [create_authors_go] at h
    injection h with h'
    subst h'
    exact absurd ha (List.not_mem_nil a)
  | cons e0 rest ih =>
    intro l h a ha
    cases hg : e0.given with
    | none => simp [create_authors_go, hg] at h
    | some g =>
      cases hf : e0.family with
      | none => simp [create_authors_go, hg, hf] at h
      | some f =>
        simp only [create_authors_go, hg, hf] at h
        cases hrest : create_authors_go rest with
        | error err =>
          rw [hrest] at h
          exact Except.noConfusion h
        | ok as =>
          rw [hrest] at h
          injection h with h'
          subst h'
          rcases List.mem_cons.mp ha with rfl | ha'
          · exact ⟨e0, List.mem_cons_self _ _, hg, hf⟩
          · obtain ⟨e, he, h1, h2⟩ := ih as hrest a ha'
            exact ⟨e, List.mem_cons_of_mem _ he, h1, h2⟩

/-- C6: `create_authors` raises `MissingAuthorData` when the entry
sequence is absent, raises `InvalidAuthorData` naming an offending entry
when some entry lacks a given or a family name, and every `Author` it
produces carries the given and family names of one of the entries — no
partial author record is ever constructed. -/
theorem create_authors_spec :
    (create_authors none = .error .missing)
  ∧ (∀ es : List AuthorEntry, (∃ e ∈ es, e.given = none ∨ e.family = none) →
      ∃ e, e ∈ es ∧ (e.given = none ∨ e.family = none)
        ∧ create_authors (some es) = .error (.invalid e))
  ∧ (∀ (es : List AuthorEntry) (l : List Author),
      create_authors (some es) = .ok l →
      ∀ a ∈ l, ∃ e ∈ es, e.given = some a.firstname ∧ e.family = some a.lastname) :=
  ⟨rfl, fun es h => create_authors_go_invalid es h,
   fun es l h => create_authors_go_ok es l h⟩

/-- Witness for C6: an author list whose single entry has no family name
is rejected with `InvalidAuthorData` naming that entry, and a valid list
yields authors drawn from its entries. -/
theorem create_authors_spec_witness :
    (∃ e, e ∈ [{ given := some "Ada", family := none : AuthorEntry }]
      ∧ (e.given = none ∨ e.family = none)
      ∧ create_authors (some [{ given := some "Ada", family := none }])
          = .error (.invalid e))
  ∧ ∃ e ∈ [{ given := some "Ada", family := some "Lovelace" : AuthorEntry }],
      e.given = some "Ada" ∧ e.family = some "Lovelace" :=
  ⟨create_authors_spec.2.1 _ ⟨_, List.mem_cons_self _ _, Or.inr rfl⟩,
   create_authors_spec.2.2 [{ given := some "Ada", family := some "Lovelace" }]
     [{ firstname := "Ada", lastname := "Lovelace" }] (by decide)
     { firstname := "Ada", lastname := "Lovelace" } (by decide)⟩

/-- C7: the Directory Scanner yields a `ModelDir` precisely for those
children of the data directory that are directories, are not in the
ignore list and have all three artifact paths present; a non-qualifying
child (for instance one missing a single required file) contributes
nothing. -/
theorem get_model_paths_iff (fs : MirrorFS) (ignore_list : List String) (md : ModelDir) :
    md ∈ get_model_paths fs ignore_list ↔
      ∃ p, p ∈ fs.children ∧ fs.isDir p = true
        ∧ ignore_list.contains (pathName p) = false
        ∧ fs.pathExists (thermoSub p) = true
        ∧ fs.pathExists (kineticsSub p) = true
        ∧ fs.pathExists (sourceSub p) = true
        ∧ md = { name := pathName p, thermo_path := thermoSub p,
                 kinetics_path := kineticsSub p, source_path := sourceSub p } := by
  rw [get_model_paths, List.mem_filterMap]
  constructor
  · rintro ⟨p, hp, hmd⟩
    by_cases hq : (fs.isDir p && !(ignore_list.contains (pathName p))
        && fs.pathExists (thermoSub p) && fs.pathExists (kineticsSub p)
        && fs.pathExists (sourceSub p)) = true
    · rw [if_pos hq] at hmd
      injection hmd with h'
      simp only [Bool.and_eq_true, Bool.not_eq_true'] at hq
      exact ⟨p, hp, hq.1.1.1.1, hq.1.1.1.2, hq.1.1.2, hq.1.2, hq.2, h'.symm⟩
    · rw [if_neg hq] at hmd
      exact Option.noConfusion hmd
  · rintro ⟨p, hp, h1, h2, h3, h4, h5, rfl⟩
    refine ⟨p, hp, ?_⟩
    have hq : (fs.isDir p && !(ignore_list.contains (pathName p))
        && fs.pathExists (thermoSub p) && fs.pathExists (kineticsSub p)
        && fs.pathExists (sourceSub p)) = true := by
      rw [h1, h2, h3, h4, h5]
      rfl
    rw [if_pos hq]

/-- Witness for C7 on a concrete mirror: of two children, the one with
all three files is yielded. -/
theorem get_model_paths_iff_witness : mdA ∈ get_model_paths fsW [] :=
  (get_model_paths_iff fsW [] mdA).mpr
    ⟨pA, by decide, by decide, by decide, by decide, by decide, by decide, by decide⟩

/-- C1 (code bug): on the end-to-end scenario the DOI resolution does
produce `"10.1000/xyz123"`, but `create_kinetic_model` unpacks the
`(Thermo, NamedSpecies)`-pair generator of `create_thermo` into the two
variables `thermo, named_species`, so a valid thermo library with three
species raises `ValueError` instead of producing a model, and even with
exactly two species the `named_species` field is bound to the second
pair alone — the kinetics parser contributes no named species and no
union is formed. -/
theorem create_kinetic_model_unpack_bug :
    get_doi citA = .ok ("10.1000/xyz123".toList)
  ∧ create_kinetic_model coA dirA3 = .error (.valueError 3)
  ∧ (create_kinetic_model coA dirA2).toOption.map
      (fun km => (km.name, km.named_species.2.name, km.source.map (fun s => s.doi)))
    = some ("model_A", "sp2", some ("10.1000/xyz123".toList)) := by decide

/-- C9 counterexample: with every environment variable unset (in
particular `PAT`), `download_rmg_models` does not fail with a
configuration error — it hands the absent token to the Github client and
begins work. -/
theorem download_no_pat_check_counterexample :
    download_rmg_models (fun _ => none)
      = .ok { pat := none, repo := "kianmehrabani/RMG-models" } := by decide

/-- C9 amended: only `POST_ENDPOINT` is validated, and only by the import
entry point, which fails before any batch work when it is unset and runs
the batch otherwise; the download entry point reads `PAT` but never
checks it and always proceeds to work with whatever the environment
held. -/
theorem env_variable_handling :
    (∀ (env : String → Option String) (co : Collaborators) (dirs : List DirInput),
      env "POST_ENDPOINT" = none →
      py_main env co dirs
        = .error (.environmentVariableMissing "POST_ENDPOINT not set"))
  ∧ (∀ (env : String → Option String) (co : Collaborators) (dirs : List DirInput)
      (e : String), env "POST_ENDPOINT" = some e →
      py_main env co dirs = .ok (importRmgModels co dirs))
  ∧ (∀ env : String → Option String,
      download_rmg_models env
        = .ok { pat := env "PAT", repo := "kianmehrabani/RMG-models" }) := by
  refine ⟨?_, ?_, fun env => rfl⟩
  · intro env co dirs h
    rw [py_main, h]
  · intro env co dirs e h
    rw [py_main, h]

/-- Witness for C9 at concrete environments. -/
theorem env_variable_handling_witness :
    py_main (fun _ => none) coA []
      = .error (.environmentVariableMissing "POST_ENDPOINT not set")
  ∧ py_main (fun _ => some "http://endpoint") coA [] = .ok (importRmgModels coA [])
  ∧ download_rmg_models (fun _ => some "tok")
      = .ok { pat := some "tok", repo := "kianmehrabani/RMG-models" } :=
  ⟨env_variable_handling.1 _ coA [] rfl,
   env_variable_handling.2.1 _ coA [] "http://endpoint" rfl,
   env_variable_handling.2.2 _⟩

theorem create_source_doi_error (co : Collaborators) (citation : List Char)
    (err : DOIError) (h : get_doi citation = .error err) :
    create_source co citation = .ok none := by
  simp [create_source, h]

/-- C2 counterexample: a batch of a broken directory (single-entry thermo
library, so assembly raises `ValueError`) followed by a well-formed one
yields nothing at all — the abort kills the whole batch — although the
well-formed directory on its own yields exactly its model. -/
theorem batch_abort_counterexample :
    importRmgModels coA [dirBad1, dirGood] = ([], some (.valueError 1))
  ∧ (importRmgModels coA [dirGood]).2 = none
  ∧ (importRmgModels coA [dirGood]).1.length = 1 := by decide

/-- C2 amended: failures are not isolated per model.  A failure of
`create_kinetic_model` (for example in parsing) aborts the whole batch:
every directory after the failing one yields nothing, only the models
before it are posted.  A citation-resolution failure (a `DOIError`), on
the other hand, does not abort even that model: `create_source` swallows
it and the model is still assembled, with no source. -/
theorem import_abort_semantics :
    (∀ (co : Collaborators) (pre : List DirInput) (bad : DirInput)
      (post : List DirInput) (e : PyErr),
      (∀ d ∈ pre, (create_kinetic_model co d).toOption.isSome = true) →
      create_kinetic_model co bad = .error e →
      ∃ kms, importRmgModels co (pre ++ bad :: post) = (kms, some e)
        ∧ kms.length = pre.length)
  ∧ (∀ (co : Collaborators) (d : DirInput) (err : DOIError),
      get_doi d.citation = .error err →
      (create_thermo d.thermoEntries).length = 2 →
      ∃ km, create_kinetic_model co d = .ok km ∧ km.source = none) := by
  constructor
  · intro co pre
    induction pre with
    | nil =>
      intro bad post e _ hbad
      refine ⟨[], ?_, rfl⟩
      simp [importRmgModels, hbad]
    | cons d pre' ih =>
      intro bad post e hpre hbad
      have hd := hpre d (List.mem_cons_self _ _)
      obtain ⟨km, hkm⟩ : ∃ km, create_kinetic_model co d = .ok km := by
        cases hc : create_kinetic_model co d with
        | ok km => exact ⟨km, rfl⟩
        | error e' =>
          rw [hc] at hd
          simp [Except.toOption] at hd
      obtain ⟨kms, hk, hlen⟩ :=
        ih bad post e (fun d' hd' => hpre d' (List.mem_cons_of_mem _ hd')) hbad
      refine ⟨km :: kms, ?_, by simp [hlen]⟩
      show importRmgModels co (d :: (pre' ++ bad :: post)) = _
      simp [importRmgModels, hkm, hk]
  · intro co d err hdoi hth
    have hcs : create_source co d.citation = .ok none :=
      create_source_doi_error co d.citation err hdoi
    obtain ⟨a, b, hab⟩ := List.length_eq_two.mp hth
    refine ⟨{ name := d.name, named_species := b, thermo := a,
              kinetics := create_kinetics d.kinEntries, source := none }, ?_, rfl⟩
    rw [create_kinetic_model, hcs, hab]

/-- Witness for C2: a good directory, then a broken one, then another
good one — only the first model survives and the batch records the
abort; and a directory with an unresolvable citation still assembles,
with no source. -/
theorem import_abort_semantics_witness :
    (∃ kms, importRmgModels coA ([dirGood] ++ dirBad1 :: [dirGood2])
        = (kms, some (.valueError 1)) ∧ kms.length = 1)
  ∧ ∃ km, create_kinetic_model coA dirNoDoi = .ok km ∧ km.source = none :=
  ⟨import_abort_semantics.1 coA [dirGood] dirBad1 [dirGood2] _ (by decide) (by decide),
   import_abort_semantics.2 coA dirNoDoi .notFound (by decide) (by decide)⟩
